import Mathlib

/-!
Shallow embedding of the extraction scripts `amazon.py` and `libgen.py`.

Strings are modelled as Lean `String`s and, where the Python code runs a
regular-expression search or substitution over a string, the scan is
modelled character by character over `String.data`; the replacement
argument of `re.sub` is parsed as a replacement template (backslash
escapes, group references) and expanded at each match, as `re.sub` does.
The network and the HTML parser are modelled as oracle parameters: the
result of the i-th search attempt is an arbitrary function
`Nat → String`, and a fetched, parsed HTML page is a record of the fields
the scripts actually read.  Exceptions that the Python code does not
catch are modelled with `Except`.
-/

set_option autoImplicit false

namespace Scripts

/-- Characters other than `'/'`, the class `[^/]` of the product-id regex. -/
def notSlash (c : Char) : Bool := c ≠ '/'

/-- Characters other than `'*'`, the class `[^*]` of the emphasis-span regex. -/
def notStar (c : Char) : Bool := c ≠ '*'

/-- Boolean test that `pat` is a prefix of `l`. -/
def startsWith : List Char → List Char → Bool
  | [], _ => true
  | _ :: _, [] => false
  | p :: ps, c :: cs => p = c && startsWith ps cs

/-- Match of the regex `/dp/([^/]+)` anchored at the head of `l`:
returns the captured group (the maximal nonempty run of non-slash
characters after `/dp/`) when the head matches. -/
def dpHere (l : List Char) : Option (List Char) :=
  if startsWith ['/', 'd', 'p', '/'] l then
    match (l.drop 4).takeWhile notSlash with
    | [] => none
    | c :: cs => some (c :: cs)
  else none

/-- Leftmost match of `re.search('/dp/([^/]+)', url)`: scan positions left
to right and return the first captured group. -/
def dpSearch : List Char → Option (List Char)
  | [] => none
  | c :: cs =>
    match dpHere (c :: cs) with
    | some id => some id
    | none => dpSearch cs

/-- Embedding of `cleanup` (amazon.py): if the URL contains `/dp/<id>`,
rewrite it to `http://www.amazon.com/dp/<id>/`, else return it unchanged. -/
def cleanup (url : String) : String :=
  match dpSearch url.data with
  | none => url
  | some id => String.mk ("http://www.amazon.com/dp/".data ++ (id ++ ['/']))

/-- Substring test for `/dp/`, used to state the no-match side conditions. -/
def hasDp : List Char → Bool
  | [] => false
  | c :: cs => startsWith ['/', 'd', 'p', '/'] (c :: cs) || hasDp cs

/-- Embedding of `amazon2` (amazon.py) as a loop over an attempt oracle:
`results i` is the string the i-th call of `amazon` returns (empty for
"not found" and for a swallowed `IOError`).  The loop starts at attempt
`i` with `r` attempts remaining and also counts the calls performed. -/
def amazon2From (results : Nat → String) : Nat → Nat → String × Nat
  | i, 0 => ("", i)
  | i, r + 1 =>
    if results i ≠ "" then (results i, i + 1)
    else amazon2From results (i + 1) r

/-- Embedding of `amazon2`: up to 30 attempts, first non-empty result wins.
Returns the result together with the number of calls of `amazon` made. -/
def amazon2 (results : Nat → String) : String × Nat :=
  amazon2From results 0 30

theorem dpHere_of_not_startsWith {l : List Char}
    (h : startsWith ['/', 'd', 'p', '/'] l = false) : dpHere l = none := by
  simp [dpHere, h]

theorem dpSearch_eq_none {l : List Char} (h : hasDp l = false) :
    dpSearch l = none := by
  induction l with
  | nil => rfl
  | cons c cs ih =>
    rw [hasDp, Bool.or_eq_false_iff] at h
    rw [dpSearch, dpHere_of_not_startsWith h.1, ih h.2]

theorem takeWhile_all (p : Char → Bool) (l : List Char) :
    (l.takeWhile p).all p = true := by
  induction l with
  | nil => rfl
  | cons c cs ih =>
    rw [List.takeWhile]
    cases h : p c with
    | false => rfl
    | true => simp [h, ih]

theorem dpHere_wf {l id : List Char} (h : dpHere l = some id) :
    id ≠ [] ∧ id.all notSlash = true := by
  rw [dpHere] at h
  split at h
  · revert h
    cases htw : (l.drop 4).takeWhile notSlash with
    | nil => intro h; cases h
    | cons c cs =>
      intro h
      cases h
      refine ⟨by simp, ?_⟩
      have := takeWhile_all notSlash (l.drop 4)
      rwa [htw] at this
  · cases h

theorem dpSearch_wf {l id : List Char} (h : dpSearch l = some id) :
    id ≠ [] ∧ id.all notSlash = true := by
  induction l with
  | nil => cases h
  | cons c cs ih =>
    rw [dpSearch] at h
    revert h
    cases hh : dpHere (c :: cs) with
    | some id0 =>
      intro h
      cases h
      exact dpHere_wf hh
    | none => intro h; exact ih h

theorem amazon2From_all_empty (results : Nat → String) :
    ∀ r i, (∀ j, j < r → results (i + j) = "") →
      amazon2From results i r = ("", i + r) := by
  intro r
  induction r with
  | zero => intro i _; simp [amazon2From]
  | succ r ih =>
    intro i hi
    have h0 : results i = "" := by simpa using hi 0 (Nat.succ_pos r)
    rw [amazon2From, if_neg (by simp [h0])]
    have := ih (i + 1) (fun j hj => by
      have := hi (j + 1) (Nat.succ_lt_succ hj)
      simpa [Nat.add_assoc, Nat.add_comm 1 j] using this)
    rw [this]
    simp [Nat.add_assoc, Nat.add_comm 1 r]

/-- C1: if every one of the first 30 attempts yields an empty result, then
`amazon2` performs exactly 30 calls of `amazon` and returns the empty
result. -/
theorem amazon2_all_fail_returns_empty_after_30 (results : Nat → String)
    (h : ∀ i, i < 30 → results i = "") : amazon2 results = ("", 30) := by
  have := amazon2From_all_empty results 30 0 (fun j hj => by simpa using h j hj)
  simpa [amazon2] using this

/-- C1 witness: the all-empty oracle makes `amazon2` do 30 calls and
return empty. -/
theorem amazon2_all_fail_witness : amazon2 (fun _ => "") = ("", 30) :=
  amazon2_all_fail_returns_empty_after_30 (fun _ => "") (fun _ _ => rfl)

theorem amazon2From_skip (results : Nat → String) :
    ∀ k i r, (∀ j, j < k → results (i + j) = "") → k ≤ r →
      amazon2From results i r = amazon2From results (i + k) (r - k) := by
  intro k
  induction k with
  | zero => intro i r _ _; simp
  | succ k ih =>
    intro i r hall hkr
    obtain ⟨r0, rfl⟩ : ∃ r0, r = r0 + 1 :=
      ⟨r - 1, by omega⟩
    have h0 : results i = "" := by simpa using hall 0 (Nat.succ_pos k)
    rw [amazon2From, if_neg (by simp [h0])]
    have := ih (i + 1) r0 (fun j hj => by
      have := hall (j + 1) (Nat.succ_lt_succ hj)
      simpa [Nat.add_assoc, Nat.add_comm 1 j] using this) (by omega)
    rw [this]
    congr 1
    · omega
    · omega

/-- C2: if the k-th attempt (k < 30) is the first to yield a non-empty
URL, `amazon2` returns that URL and has performed exactly k+1 calls:
no further attempts happen after the first success. -/
theorem amazon2_first_success_stops (results : Nat → String) (k : Nat)
    (hk : k < 30) (hne : results k ≠ "")
    (hbefore : ∀ i, i < k → results i = "") :
    amazon2 results = (results k, k + 1) := by
  rw [amazon2,
    amazon2From_skip results k 0 30 (fun j hj => by simpa using hbefore j hj)
      (by omega)]
  obtain ⟨m, hm⟩ : ∃ m, 30 - k = m + 1 := ⟨29 - k, by omega⟩
  rw [hm]
  simp only [Nat.zero_add]
  rw [amazon2From, if_pos hne]

/-- C2 witness: an oracle whose first success is attempt 2 makes `amazon2`
return that URL after exactly 3 calls. -/
theorem amazon2_first_success_witness :
    amazon2 (fun i => if i = 2 then "http://www.amazon.com/dp/X/" else "")
      = ("http://www.amazon.com/dp/X/", 3) := by
  have h := amazon2_first_success_stops
    (fun i => if i = 2 then "http://www.amazon.com/dp/X/" else "") 2
    (by omega) (by decide) (by decide)
  simpa using h

/-- C3 counterexample: on the spec's own example URL, `cleanup` rewrites
the host to `www.amazon.com`; it does not keep `example.com` as the claim
states. -/
theorem cleanup_example_host_rewritten_cex :
    cleanup "http://example.com/dp/B000123ABC/ref=xyz"
        = "http://www.amazon.com/dp/B000123ABC/" ∧
      cleanup "http://example.com/dp/B000123ABC/ref=xyz"
        ≠ "http://example.com/dp/B000123ABC/" := by
  constructor
  · rfl
  · decide

/-- C3 amended: when the URL contains `/dp/<id>`, `cleanup` rewrites it to
the fixed canonical form `http://www.amazon.com/dp/<id>/` (host replaced
by `www.amazon.com`); the identifier found is a nonempty slash-free
segment and is preserved verbatim. -/
theorem cleanup_amended (url : String) (id : List Char)
    (h : dpSearch url.data = some id) :
    cleanup url = String.mk ("http://www.amazon.com/dp/".data ++ (id ++ ['/']))
      ∧ id ≠ [] ∧ id.all notSlash = true := by
  refine ⟨?_, dpSearch_wf h⟩
  rw [cleanup, h]

/-- C3 amended witness: the amended rewrite evaluated on the spec's
example URL. -/
theorem cleanup_amended_witness :
    cleanup "http://example.com/dp/B000123ABC/ref=xyz"
      = String.mk ("http://www.amazon.com/dp/".data ++ ("B000123ABC".data ++ ['/'])) :=
  (cleanup_amended "http://example.com/dp/B000123ABC/ref=xyz"
    "B000123ABC".data (by decide)).1

/-- C4: a URL with no `/dp/` substring is returned unchanged by
`cleanup`. -/
theorem cleanup_no_dp_identity (url : String)
    (h : hasDp url.data = false) : cleanup url = url := by
  rw [cleanup, dpSearch_eq_none h]

/-- C4 witness: a URL without `/dp/` is fixed by `cleanup`. -/
theorem cleanup_no_dp_identity_witness :
    cleanup "http://example.com/gp/product/B000123ABC"
      = "http://example.com/gp/product/B000123ABC" :=
  cleanup_no_dp_identity "http://example.com/gp/product/B000123ABC" (by decide)

/-- Match of the regex `[*]([^*]+)[*]` anchored at the head of `l`:
returns the captured group and the remainder after the closing `'*'`. -/
def spanHere (l : List Char) : Option (List Char × List Char) :=
  match l with
  | [] => none
  | c :: cs =>
    if c = '*' then
      match cs.takeWhile notStar, cs.dropWhile notStar with
      | t :: ts, '*' :: rest => some (t :: ts, rest)
      | _, _ => none
    else none

/-- Leftmost match of `re.search(regexp, line)` for the emphasis-span
regex: the first captured group, scanning positions left to right. -/
def spanSearch : List Char → Option (List Char)
  | [] => none
  | c :: cs =>
    match spanHere (c :: cs) with
    | some (t, _) => some t
    | none => spanSearch cs

/-- One element of a parsed `re.sub` replacement template: a literal
character, or a reference to a capture group. -/
inductive Templ where
  | lit (c : Char)
  | group (n : Nat)

/-- Octal digits, the class `OCTDIGITS` of the template parser. -/
def octDigit (c : Char) : Bool := '0' ≤ c && c ≤ '7'

/-- Numeric value of a decimal digit character. -/
def digitVal (c : Char) : Nat := c.toNat - 48

/-- Numeric value of a run of decimal digit characters. -/
def digitsToNat (l : List Char) : Nat :=
  l.foldl (fun a c => a * 10 + digitVal c) 0

/-- The `ESCAPES` table of the template parser: the backslash escapes that
denote a single control character. -/
def escChar (d : Char) : Option Char :=
  if d = 'a' then some (Char.ofNat 7)
  else if d = 'b' then some (Char.ofNat 8)
  else if d = 'f' then some (Char.ofNat 12)
  else if d = 'n' then some (Char.ofNat 10)
  else if d = 'r' then some (Char.ofNat 13)
  else if d = 't' then some (Char.ofNat 9)
  else if d = 'v' then some (Char.ofNat 11)
  else if d = '\\' then some '\\'
  else none

/-- Prepend a parsed item to the result of parsing the rest. -/
def templCons (item : Templ) (r : Except Unit (List Templ)) :
    Except Unit (List Templ) :=
  match r with
  | Except.error e => Except.error e
  | Except.ok ts => Except.ok (item :: ts)

/-- One backslash escape of a `re.sub` replacement template, the
characters after the backslash: `\g<n>` and `\1`..`\99` are group
references, `\0` (with up to two more octal digits) and
three-octal-digit sequences are character literals taken modulo 256,
`\a \b \f \n \r \t \v \\` are control-character literals, any other
escaped character is kept literally (Python 2 keeps unknown escapes),
and a trailing backslash, a malformed or unterminated `\g<...>`, or a
group name that does not denote a numbered group of this pattern raises
(`Except.error`).  Returns the parsed items and the remaining input. -/
def parseEscape : List Char → Except Unit (List Templ × List Char)
  | [] => Except.error ()
  | d :: ds =>
    if d = 'g' then
      match ds with
      | '<' :: es =>
        match es.dropWhile (fun x => x ≠ '>') with
        | [] => Except.error ()
        | _ :: rest =>
          let name := es.takeWhile (fun x => x ≠ '>')
          if name = [] then Except.error ()
          else if name.all Char.isDigit then
            Except.ok ([Templ.group (digitsToNat name)], rest)
          else Except.error ()
      | _ => Except.error ()
    else if d = '0' then
      match ds with
      | [] => Except.ok ([Templ.lit (Char.ofNat 0)], [])
      | e1 :: es1 =>
        if octDigit e1 then
          match es1 with
          | [] => Except.ok ([Templ.lit (Char.ofNat (digitVal e1))], [])
          | e2 :: es2 =>
            if octDigit e2 then
              Except.ok
                ([Templ.lit (Char.ofNat ((digitVal e1 * 8 + digitVal e2) % 256))],
                  es2)
            else Except.ok ([Templ.lit (Char.ofNat (digitVal e1))], e2 :: es2)
        else Except.ok ([Templ.lit (Char.ofNat 0)], e1 :: es1)
    else if d.isDigit then
      match ds with
      | [] => Except.ok ([Templ.group (digitVal d)], [])
      | e1 :: es1 =>
        if e1.isDigit then
          if octDigit d && octDigit e1 &&
              (match es1 with
               | e2 :: _ => octDigit e2
               | [] => false) then
            match es1 with
            | e2 :: es2 =>
              Except.ok
                ([Templ.lit (Char.ofNat
                  ((digitVal d * 64 + digitVal e1 * 8 + digitVal e2) % 256))],
                  es2)
            | [] => Except.error ()
          else Except.ok ([Templ.group (digitVal d * 10 + digitVal e1)], es1)
        else Except.ok ([Templ.group (digitVal d)], e1 :: es1)
    else
      match escChar d with
      | some ch => Except.ok ([Templ.lit ch], ds)
      | none => Except.ok ([Templ.lit '\\', Templ.lit d], ds)

/-- Embedding of `sre_parse.parse_template`, which `re.sub` applies to its
replacement string before scanning: literal characters are kept and each
backslash escape is parsed by `parseEscape`.  One unit of fuel is spent
per parsed token and every token consumes at least one character, so
`l.length` fuel is enough. -/
def parseTemplateFuel : Nat → List Char → Except Unit (List Templ)
  | 0, _ => Except.ok []
  | _ + 1, [] => Except.ok []
  | f + 1, c :: cs =>
    if c = '\\' then
      match parseEscape cs with
      | Except.error e => Except.error e
      | Except.ok (items, rest) =>
        match parseTemplateFuel f rest with
        | Except.error e => Except.error e
        | Except.ok ts => Except.ok (items ++ ts)
    else templCons (Templ.lit c) (parseTemplateFuel f cs)

/-- Full template parse of a replacement string. -/
def parseTemplate (l : List Char) : Except Unit (List Templ) :=
  parseTemplateFuel l.length l

/-- Embedding of `sre_parse.expand_template` at one match of the span
regex: group 0 is the whole match `*title*`, group 1 the title (always
matched, never `None`); any other group reference raises (`re.error`,
via `IndexError` in `match.group`). -/
def expandTempl (whole title : List Char) : List Templ → Except Unit (List Char)
  | [] => Except.ok []
  | Templ.lit c :: ts =>
    match expandTempl whole title ts with
    | Except.error e => Except.error e
    | Except.ok r => Except.ok (c :: r)
  | Templ.group n :: ts =>
    if n = 0 then
      match expandTempl whole title ts with
      | Except.error e => Except.error e
      | Except.ok r => Except.ok (whole ++ r)
    else if n = 1 then
      match expandTempl whole title ts with
      | Except.error e => Except.error e
      | Except.ok r => Except.ok (title ++ r)
    else Except.error ()

/-- The scan of `re.sub(regexp, repl, line)`: replace every
non-overlapping match, left to right, by the parsed template expanded
with that match's own groups.  One unit of fuel is spent per step and
every step consumes at least one character, so `l.length` fuel is
enough. -/
def subSpanTemplFuel (tmpl : List Templ) :
    Nat → List Char → Except Unit (List Char)
  | _, [] => Except.ok []
  | 0, l => Except.ok l
  | fuel + 1, c :: cs =>
    match spanHere (c :: cs) with
    | some (t, rest) =>
      match expandTempl ('*' :: (t ++ ['*'])) t tmpl with
      | Except.error e => Except.error e
      | Except.ok r =>
        match subSpanTemplFuel tmpl fuel rest with
        | Except.error e => Except.error e
        | Except.ok rs => Except.ok (r ++ rs)
    | none =>
      match subSpanTemplFuel tmpl fuel cs with
      | Except.error e => Except.error e
      | Except.ok rs => Except.ok (c :: rs)

/-- The replacement string `'*[%s](%s)*' % (title, url)` of `addurl`. -/
def mkRepl (title urlcs : List Char) : List Char :=
  ['*', '['] ++ title ++ ([']', '('] ++ urlcs ++ [')', '*'])

/-- List-level body of `addurl`: if the span regex has no match, return
the line unchanged (the replacement string is never even built);
otherwise build the replacement from the first match's title, parse it as
a `re.sub` template — which can raise on malformed escapes — and
substitute every match by the template expanded at that match. -/
def addurlData (line urlcs : List Char) : Except Unit (List Char) :=
  match spanSearch line with
  | none => Except.ok line
  | some title =>
    match parseTemplate (mkRepl title urlcs) with
    | Except.error e => Except.error e
    | Except.ok tmpl => subSpanTemplFuel tmpl line.length line

/-- Embedding of `addurl` (amazon.py); `Except.error` is an uncaught
`re.error` raised by the substitution. -/
def addurl (line url : String) : Except Unit String :=
  match addurlData line.data url.data with
  | Except.error e => Except.error e
  | Except.ok l => Except.ok (String.mk l)

/-- A line made of an initial gap followed by asterisk-delimited spans,
each followed by its gap: `g0 *T1* g1 *T2* g2 ...`. -/
def spansLine (g0 : List Char) : List (List Char × List Char) → List Char
  | [] => g0
  | (t, g) :: rest => g0 ++ '*' :: (t ++ '*' :: spansLine g rest)

/-- The same line with every span replaced by the fixed text `R`. -/
def spansOut (R : List Char) (g0 : List Char) :
    List (List Char × List Char) → List Char
  | [] => g0
  | (_, g) :: rest => g0 ++ (R ++ spansOut R g rest)

theorem spanHere_cons_ne {c : Char} (cs : List Char) (h : ¬ c = '*') :
    spanHere (c :: cs) = none := by
  simp [spanHere, h]

theorem takeWhile_append_star (T rest : List Char) (hT : T.all notStar = true) :
    (T ++ '*' :: rest).takeWhile notStar = T ∧
      (T ++ '*' :: rest).dropWhile notStar = '*' :: rest := by
  induction T with
  | nil =>
    constructor
    · simp [List.takeWhile, notStar]
    · simp [List.dropWhile, notStar]
  | cons t ts ih =>
    rw [List.all_cons, Bool.and_eq_true] at hT
    have := ih hT.2
    constructor
    · simpa [List.takeWhile, hT.1] using this.1
    · simpa [List.dropWhile, hT.1] using this.2

theorem spanHere_pos (T rest : List Char) (hT : T.all notStar = true)
    (hne : T ≠ []) : spanHere ('*' :: (T ++ '*' :: rest)) = some (T, rest) := by
  obtain ⟨t, ts, rfl⟩ : ∃ t ts, T = t :: ts := by
    cases T with
    | nil => exact absurd rfl hne
    | cons t ts => exact ⟨t, ts, rfl⟩
  have h1 := (takeWhile_append_star (t :: ts) rest hT).1
  have h2 := (takeWhile_append_star (t :: ts) rest hT).2
  simp only [List.cons_append] at h1 h2
  simp [spanHere, h1, h2]

theorem spanSearch_single (pre T rest : List Char)
    (hpre : pre.all notStar = true) (hT : T.all notStar = true)
    (hne : T ≠ []) :
    spanSearch (pre ++ '*' :: (T ++ '*' :: rest)) = some T := by
  induction pre with
  | nil => simp [spanSearch, spanHere_pos T rest hT hne]
  | cons c pre' ih =>
    rw [List.all_cons, Bool.and_eq_true] at hpre
    have hc : ¬ c = '*' := by simpa [notStar] using hpre.1
    rw [List.cons_append, spanSearch, spanHere_cons_ne _ hc]
    exact ih hpre.2

theorem noStar_spanSearch : ∀ l : List Char, l.all notStar = true →
    spanSearch l = none := by
  intro l
  induction l with
  | nil => intro _; rfl
  | cons c cs ih =>
    intro h
    rw [List.all_cons, Bool.and_eq_true] at h
    have hc : ¬ c = '*' := by simpa [notStar] using h.1
    rw [spanSearch, spanHere_cons_ne _ hc, ih h.2]

theorem parseTemplateFuel_lit : ∀ (l : List Char) (fuel : Nat),
    l.all (fun c => c ≠ '\\') = true → l.length ≤ fuel →
    parseTemplateFuel fuel l = Except.ok (l.map Templ.lit) := by
  intro l
  induction l with
  | nil => intro fuel _ _; cases fuel <;> rfl
  | cons c cs ih =>
    intro fuel h hlen
    obtain ⟨f, rfl⟩ : ∃ f, fuel = f + 1 := ⟨fuel - 1, by simp at hlen; omega⟩
    rw [List.all_cons, Bool.and_eq_true] at h
    have hc : ¬ c = '\\' := by simpa using h.1
    rw [parseTemplateFuel, if_neg hc, ih f h.2 (by simp at hlen; omega)]
    rfl

theorem expandTempl_lit (whole title : List Char) :
    ∀ R : List Char, expandTempl whole title (R.map Templ.lit) = Except.ok R := by
  intro R
  induction R with
  | nil => rfl
  | cons c cs ih => rw [List.map_cons, expandTempl, ih]

theorem subSpanTemplFuel_no_span (tmpl : List Templ) :
    ∀ l, spanSearch l = none → ∀ fuel,
      subSpanTemplFuel tmpl fuel l = Except.ok l := by
  intro l
  induction l with
  | nil => intro _ fuel; cases fuel <;> rfl
  | cons c cs ih =>
    intro h fuel
    rw [spanSearch] at h
    revert h
    cases hh : spanHere (c :: cs) with
    | some p =>
      obtain ⟨t, r⟩ := p
      intro h
      simp at h
    | none =>
      intro h
      simp only at h
      cases fuel with
      | zero => rfl
      | succ f => rw [subSpanTemplFuel, hh, ih h f]

theorem subSpanTemplFuel_skip (tmpl : List Templ) :
    ∀ (pre l : List Char) (fuel : Nat), pre.all notStar = true →
      pre.length ≤ fuel →
      subSpanTemplFuel tmpl fuel (pre ++ l)
        = match subSpanTemplFuel tmpl (fuel - pre.length) l with
          | Except.error e => Except.error e
          | Except.ok rs => Except.ok (pre ++ rs) := by
  intro pre
  induction pre with
  | nil =>
    intro l fuel _ _
    simp only [List.nil_append, List.length_nil, Nat.sub_zero]
    cases hr : subSpanTemplFuel tmpl fuel l with
    | error e => rfl
    | ok rs => rfl
  | cons c pre' ih =>
    intro l fuel hpre hlen
    obtain ⟨f, rfl⟩ : ∃ f, fuel = f + 1 := ⟨fuel - 1, by simp at hlen; omega⟩
    rw [List.all_cons, Bool.and_eq_true] at hpre
    have hc : ¬ c = '*' := by simpa [notStar] using hpre.1
    rw [List.cons_append, subSpanTemplFuel, spanHere_cons_ne _ hc]
    rw [ih l f hpre.2 (by simp at hlen; omega)]
    have harith : f + 1 - (c :: pre').length = f - pre'.length := by
      simp
    rw [harith]
    cases hr : subSpanTemplFuel tmpl (f - pre'.length) l with
    | error e => rfl
    | ok rs => rfl

theorem subSpanTemplFuel_head (tmpl : List Templ) (T rest : List Char)
    (fuel : Nat) (hT : T.all notStar = true) (hne : T ≠ [])
    (hfuel : 1 ≤ fuel) :
    subSpanTemplFuel tmpl fuel ('*' :: (T ++ '*' :: rest))
      = match expandTempl ('*' :: (T ++ ['*'])) T tmpl with
        | Except.error e => Except.error e
        | Except.ok r =>
          match subSpanTemplFuel tmpl (fuel - 1) rest with
          | Except.error e => Except.error e
          | Except.ok rs => Except.ok (r ++ rs) := by
  obtain ⟨f, rfl⟩ : ∃ f, fuel = f + 1 := ⟨fuel - 1, by omega⟩
  simp only [Nat.add_sub_cancel]
  rw [subSpanTemplFuel, spanHere_pos T rest hT hne]

theorem subSpanTemplFuel_spans (R : List Char) :
    ∀ (sps : List (List Char × List Char)) (g0 : List Char) (fuel : Nat),
      g0.all notStar = true →
      (∀ p ∈ sps, p.1.all notStar = true ∧ p.1 ≠ [] ∧ p.2.all notStar = true) →
      (spansLine g0 sps).length ≤ fuel →
      subSpanTemplFuel (R.map Templ.lit) fuel (spansLine g0 sps)
        = Except.ok (spansOut R g0 sps) := by
  intro sps
  induction sps with
  | nil =>
    intro g0 fuel hg0 _ _
    exact subSpanTemplFuel_no_span _ g0 (noStar_spanSearch g0 hg0) fuel
  | cons p rest ih =>
    obtain ⟨T, g⟩ := p
    intro g0 fuel hg0 hsp hfuel
    have hT := hsp (T, g) (by simp)
    have hlen : (spansLine g0 ((T, g) :: rest)).length
        = g0.length + T.length + (spansLine g rest).length + 2 := by
      rw [spansLine]
      simp only [List.length_append, List.length_cons]
      omega
    rw [hlen] at hfuel
    rw [spansLine, subSpanTemplFuel_skip _ g0 _ fuel hg0 (by omega)]
    rw [subSpanTemplFuel_head _ T (spansLine g rest) _ hT.1 hT.2.1 (by omega)]
    rw [expandTempl_lit]
    rw [ih g (fuel - g0.length - 1)
      hT.2.2 (fun q hq => hsp q (List.mem_cons_of_mem _ hq)) (by omega)]
    rfl

theorem addurlData_spans (g0 T1 g1 : List Char)
    (sps : List (List Char × List Char)) (urlcs : List Char)
    (hg0 : g0.all notStar = true)
    (hsp : ∀ p ∈ (T1, g1) :: sps,
      p.1.all notStar = true ∧ p.1 ≠ [] ∧ p.2.all notStar = true)
    (hbs : (T1 ++ urlcs).all (fun c => c ≠ '\\') = true) :
    addurlData (spansLine g0 ((T1, g1) :: sps)) urlcs
      = Except.ok (spansOut (mkRepl T1 urlcs) g0 ((T1, g1) :: sps)) := by
  have hT1 := hsp (T1, g1) (by simp)
  have hsearch : spanSearch (spansLine g0 ((T1, g1) :: sps)) = some T1 := by
    rw [spansLine]
    exact spanSearch_single g0 T1 (spansLine g1 sps) hg0 hT1.1 hT1.2.1
  rw [List.all_append, Bool.and_eq_true] at hbs
  have hbs2 : (mkRepl T1 urlcs).all (fun c => c ≠ '\\') = true := by
    rw [mkRepl, List.all_append, List.all_append, List.all_append,
      List.all_append]
    rw [Bool.and_eq_true, Bool.and_eq_true, Bool.and_eq_true, Bool.and_eq_true]
    exact ⟨⟨by decide, hbs.1⟩, ⟨by decide, hbs.2⟩, by decide⟩
  have hparse : parseTemplate (mkRepl T1 urlcs)
      = Except.ok ((mkRepl T1 urlcs).map Templ.lit) :=
    parseTemplateFuel_lit (mkRepl T1 urlcs) (mkRepl T1 urlcs).length hbs2 le_rfl
  rw [addurlData, hsearch]
  show (match parseTemplate (mkRepl T1 urlcs) with
    | Except.error e => Except.error e
    | Except.ok tmpl =>
      subSpanTemplFuel tmpl (spansLine g0 ((T1, g1) :: sps)).length
        (spansLine g0 ((T1, g1) :: sps))) = _
  rw [hparse]
  show subSpanTemplFuel ((mkRepl T1 urlcs).map Templ.lit)
      (spansLine g0 ((T1, g1) :: sps)).length
      (spansLine g0 ((T1, g1) :: sps)) = _
  exact subSpanTemplFuel_spans (mkRepl T1 urlcs) ((T1, g1) :: sps) g0 _
    hg0 hsp le_rfl

theorem addurl_data_ok (l u r : List Char) (h : addurlData l u = Except.ok r) :
    addurl (String.mk l) (String.mk u) = Except.ok (String.mk r) := by
  unfold addurl
  rw [show (String.mk l).data = l from rfl, show (String.mk u).data = u from rfl,
    h]

/-- Template expansion, not literal splicing: a title containing the two
characters backslash-`t` produces an actual tab character in the output,
exactly as `re.sub` does. -/
theorem addurl_template_tab :
    addurl "*C:\\temp*" "u" = Except.ok "*[C:\temp](u)*" := rfl

/-- Template expansion of a group reference in the URL: `\1` expands, at
each match, to that match's own title. -/
theorem addurl_template_group_ref :
    addurl "*A* *B*" "\\1" = Except.ok "*[A](A)* *[A](B)*" := rfl

/-- A reference to a group this pattern does not have raises, as `re.sub`
does. -/
theorem addurl_template_bad_group :
    addurl "*A*" "\\2" = Except.error () := rfl

/-- C5 counterexample: on a line with two asterisk-delimited spans,
`addurl` does not leave the second span unchanged — `re.sub` replaces
every span with the replacement built from the first span's title. -/
theorem addurl_second_span_cex :
    addurl "*A* *B*" "u" ≠ Except.ok "*[A](u)* *B*" ∧
      addurl "*A* *B*" "u" = Except.ok "*[A](u)* *[A](u)*" := by
  refine ⟨?_, rfl⟩
  intro h
  rw [show addurl "*A* *B*" "u" = Except.ok "*[A](u)* *[A](u)*" from rfl] at h
  injection h with h2
  exact absurd h2 (by decide)

/-- C5 amended: when the first span's title and the URL contain no
backslash (so the replacement string parses as an all-literal `re.sub`
template), `addurl` replaces every asterisk-delimited span of the line —
the first and all later ones — by the same text `*[T1](url)*` built from
the first span's title, leaving the star-free gaps around the spans
unchanged; later spans are not preserved.  With backslash escapes in the
title or URL the program instead applies template expansion per match. -/
theorem addurl_amended (g0 T1 g1 : List Char)
    (sps : List (List Char × List Char)) (urlcs : List Char)
    (hg0 : g0.all notStar = true)
    (hsp : ∀ p ∈ (T1, g1) :: sps,
      p.1.all notStar = true ∧ p.1 ≠ [] ∧ p.2.all notStar = true)
    (hbs : (T1 ++ urlcs).all (fun c => c ≠ '\\') = true) :
    addurl (String.mk (spansLine g0 ((T1, g1) :: sps))) (String.mk urlcs)
      = Except.ok (String.mk (spansOut (mkRepl T1 urlcs) g0 ((T1, g1) :: sps))) :=
  addurl_data_ok _ _ _ (addurlData_spans g0 T1 g1 sps urlcs hg0 hsp hbs)

/-- C5 amended witness: the spec's own example line and URL. -/
theorem addurl_amended_witness :
    addurl "- *Some Title*" "http://x/y"
      = Except.ok "- *[Some Title](http://x/y)*" :=
  addurl_amended ['-', ' '] "Some Title".data [] [] "http://x/y".data
    (by decide) (by decide) (by decide)

/-- C6: a line in which the emphasis-span regex has no match is returned
unchanged by `addurl` (no substitution and no error), whatever the
URL. -/
theorem addurl_no_span_identity (line url : String)
    (h : spanSearch line.data = none) : addurl line url = Except.ok line := by
  unfold addurl addurlData
  rw [h]

/-- C6 witness: a line with no asterisk-delimited span is fixed by
`addurl`. -/
theorem addurl_no_span_identity_witness :
    addurl "- Some Title" "http://x/y" = Except.ok "- Some Title" :=
  addurl_no_span_identity "- Some Title" "http://x/y" (by decide)

/-- Embedding of Python `s.replace(pat, repl)`: replace every
non-overlapping occurrence, scanning left to right.  One unit of fuel is
spent per step and every step consumes at least one character (the
pattern used below is nonempty), so `l.length` fuel is enough. -/
def replaceFuel (pat repl : List Char) : Nat → List Char → List Char
  | _, [] => []
  | 0, l => l
  | f + 1, c :: cs =>
    if startsWith pat (c :: cs) then
      repl ++ replaceFuel pat repl f (List.drop pat.length (c :: cs))
    else c :: replaceFuel pat repl f cs

/-- String-level replacement wrapper. -/
def strReplace (s pat repl : String) : String :=
  String.mk (replaceFuel pat.data repl.data s.data.length s.data)

/-- One `<tr>` of the libgen results table, holding exactly the fields the
script reads: the texts of its `<td>` cells, and the `href` of the first
descendant whose `href` matches `libgen.io` (`none` when no such link
exists, in which case `tr.find(href=fn)` is `None` and subscripting it
raises). -/
structure Row where
  tds : List String
  href : Option String

/-- A fetched, parsed libgen page: the `<table class="c">` as its list of
rows (`none` when the table is absent), and the `href` of the
next-page anchor (the one whose text matches the `►` glyph). -/
structure Page where
  table : Option (List Row)
  next : Option String

/-- The generated transfer command, the `wget` format string of `links`. -/
def mkWget (id path ext link link2 : String) : String :=
  "wget -c -w 60 -t inf -T 10 -O \"" ++ id ++ " " ++ path ++ "." ++ ext
    ++ "\" --referer \"" ++ link ++ "\" \"" ++ link2 ++ "\"\n"

/-- Body of the per-row extraction of `links` (libgen.py).  `tds[0]` on a
row with no cells raises `IndexError`, `tr.find(href=fn)['href']` on a row
with no matching link raises `TypeError`, and `tds[8]` on a row with
fewer than nine cells raises `IndexError`; none of these is caught, which
the `Except.error` branch records. -/
def processRow (urljoin : String → String → String) (url path : String)
    (r : Row) : Except Unit String :=
  match r.tds.get? 0 with
  | none => Except.error ()
  | some id =>
    match r.href with
    | none => Except.error ()
    | some h =>
      let link := urljoin url h
      let link2 := strReplace link "get_ads" "get"
      match r.tds.get? 8 with
      | none => Except.error ()
      | some ext => Except.ok (mkWget id path ext link link2)

/-- The row loop of `links`: commands are written to the script in row
order until a row raises; an error carries the commands already
written. -/
def processRows (urljoin : String → String → String) (url path : String) :
    List Row → Except (List String) (List String)
  | [] => Except.ok []
  | r :: rs =>
    match processRow urljoin url path r with
    | Except.error _ => Except.error []
    | Except.ok cmd =>
      match processRows urljoin url path rs with
      | Except.error ps => Except.error (cmd :: ps)
      | Except.ok cmds => Except.ok (cmd :: cmds)

/-- Embedding of `links` (libgen.py).  `fetch` models `urlopen` plus the
HTML parse (`none` is an `IOError`, which the function catches and turns
into a bare `return`, i.e. Python `None`); `urljoin` models
`urlparse.urljoin`.  The result is the list of commands appended to the
script together with the returned value: `none` for the early `return`
paths, `some u` for the returned url (`""` when no next-page anchor is
found).  An uncaught exception from a row is an `Except.error`. -/
def links (fetch : String → Option Page) (urljoin : String → String → String)
    (url path : String) : Except (List String) (List String × Option String) :=
  match fetch url with
  | none => Except.ok ([], none)
  | some page =>
    match page.table with
    | none => Except.ok ([], none)
    | some [] => Except.ok ([], none)
    | some (_ :: rows) =>
      match processRows urljoin url path rows with
      | Except.error ps => Except.error ps
      | Except.ok cmds =>
        match page.next with
        | some h => Except.ok (cmds, some (urljoin url h))
        | none => Except.ok (cmds, some "")

/-- Embedding of the pagination loop of `download` (libgen.py),
`while url: url = links(url, path, script)`, collecting the commands all
pages emit.  The loop has no intrinsic bound (a cycle of next-links runs
forever), so a fuel argument bounds the number of iterations. -/
def downloadLoop (fetch : String → Option Page)
    (urljoin : String → String → String) (path : String) :
    Nat → String → Except (List String) (List String)
  | 0, _ => Except.ok []
  | f + 1, url =>
    if url = "" then Except.ok []
    else
      match links fetch urljoin url path with
      | Except.error ps => Except.error ps
      | Except.ok (cmds, nxt) =>
        match nxt with
        | none => Except.ok cmds
        | some u =>
          match downloadLoop fetch urljoin path f u with
          | Except.error ps => Except.error (cmds ++ ps)
          | Except.ok rest => Except.ok (cmds ++ rest)

/-- The first `a-link-normal` anchor inside the results container of an
Amazon search page; `a['href']` raises `KeyError` when the attribute is
absent. -/
structure Anchor where
  href : Option String

/-- The `div#atfResults` container: the first matching anchor inside it,
or `none` when `div.find` returns `None`. -/
structure ADiv where
  a : Option Anchor

/-- A fetched, parsed Amazon search page, holding exactly what `amazon`
reads: the results container, or `none` when `soup.find` returns
`None`. -/
structure APage where
  div : Option ADiv

/-- The extraction body of `amazon` (amazon.py): a missing container or a
missing anchor yields the empty result; a present anchor's URL is joined
and normalized. -/
def amazonExtract (urljoin : String → String → String) (searchUrl : String)
    (page : APage) : Except Unit String :=
  match page.div with
  | none => Except.ok ""
  | some d =>
    match d.a with
    | none => Except.ok ""
    | some an =>
      match an.href with
      | none => Except.error ()
      | some h => Except.ok (cleanup (urljoin searchUrl h))

theorem downloadLoop_nil_url (fetch : String → Option Page)
    (urljoin : String → String → String) (path : String) :
    ∀ f, downloadLoop fetch urljoin path f "" = Except.ok [] := by
  intro f
  cases f with
  | zero => rfl
  | succ f => rw [downloadLoop, if_pos rfl]

/-- C7: on a two-page input whose first page has a header row, three data
rows and a next-page link leading to the second page, and whose second
page has a header row, two data rows and no next-page link, the collector
emits exactly the five commands of the data rows, in row order, page 1
before page 2. -/
theorem links_two_page_five_commands
    (fetch : String → Option Page) (urljoin : String → String → String)
    (path url1 url2 nh : String) (p1 p2 : Page) (h0 g0 a1 a2 a3 b1 b2 : Row)
    (c1 c2 c3 c4 c5 : String) (fuel : Nat)
    (hu1 : url1 ≠ "") (hu2 : url2 ≠ "")
    (hf1 : fetch url1 = some p1) (hf2 : fetch url2 = some p2)
    (ht1 : p1.table = some [h0, a1, a2, a3]) (hn1 : p1.next = some nh)
    (hj : urljoin url1 nh = url2)
    (ht2 : p2.table = some [g0, b1, b2]) (hn2 : p2.next = none)
    (e1 : processRow urljoin url1 path a1 = Except.ok c1)
    (e2 : processRow urljoin url1 path a2 = Except.ok c2)
    (e3 : processRow urljoin url1 path a3 = Except.ok c3)
    (e4 : processRow urljoin url2 path b1 = Except.ok c4)
    (e5 : processRow urljoin url2 path b2 = Except.ok c5)
    (hfuel : 2 ≤ fuel) :
    downloadLoop fetch urljoin path fuel url1
      = Except.ok [c1, c2, c3, c4, c5] := by
  have l1 : links fetch urljoin url1 path
      = Except.ok ([c1, c2, c3], some url2) := by
    have hpr : processRows urljoin url1 path [a1, a2, a3]
        = Except.ok [c1, c2, c3] := by
      simp [processRows, e1, e2, e3]
    simp only [links, hf1, ht1, hpr, hn1, hj]
  have l2 : links fetch urljoin url2 path
      = Except.ok ([c4, c5], some "") := by
    have hpr : processRows urljoin url2 path [b1, b2]
        = Except.ok [c4, c5] := by
      simp [processRows, e4, e5]
    simp only [links, hf2, ht2, hpr, hn2]
  obtain ⟨f, rfl⟩ : ∃ f, fuel = f + 2 := ⟨fuel - 2, by omega⟩
  simp only [show f + 2 = (f + 1) + 1 from rfl, downloadLoop, if_neg hu1,
    if_neg hu2, l1, l2, downloadLoop_nil_url]
  rfl

/-- C7 witness: a concrete two-page stub with 3 + 2 well-formed data
rows. -/
theorem links_two_page_five_commands_witness :
    downloadLoop
      (fun u => if u = "page1"
        then some ⟨some [⟨[], none⟩,
          ⟨["1", "", "", "", "", "", "", "", "pdf"], some "l1"⟩,
          ⟨["2", "", "", "", "", "", "", "", "pdf"], some "l2"⟩,
          ⟨["3", "", "", "", "", "", "", "", "pdf"], some "l3"⟩], some "page2"⟩
        else if u = "page2"
        then some ⟨some [⟨[], none⟩,
          ⟨["4", "", "", "", "", "", "", "", "pdf"], some "l4"⟩,
          ⟨["5", "", "", "", "", "", "", "", "pdf"], some "l5"⟩], none⟩
        else none)
      (fun _ h => h) "dir" 2 "page1"
      = Except.ok
        [mkWget "1" "dir" "pdf" "l1" "l1", mkWget "2" "dir" "pdf" "l2" "l2",
         mkWget "3" "dir" "pdf" "l3" "l3", mkWget "4" "dir" "pdf" "l4" "l4",
         mkWget "5" "dir" "pdf" "l5" "l5"] := by
  refine links_two_page_five_commands _ (fun _ h => h) "dir" "page1" "page2"
    "page2" _ _ ⟨[], none⟩ ⟨[], none⟩ _ _ _ _ _ _ _ _ _ _ 2
    (by decide) (by decide) rfl rfl rfl rfl rfl rfl rfl rfl rfl rfl rfl rfl
    (by omega)

/-- C8 counterexample: a page whose table has a header row but no data
rows does not stop the collection — `links` still follows the next-page
link, and the collector goes on to emit a command from the following
page. -/
theorem links_header_only_follows_next_cex :
    links
        (fun u => if u = "page1" then some ⟨some [⟨[], none⟩], some "page2"⟩
          else if u = "page2"
          then some ⟨some [⟨[], none⟩,
            ⟨["1", "", "", "", "", "", "", "", "pdf"], some "l1"⟩], none⟩
          else none)
        (fun _ h => h) "page1" "dir" = Except.ok ([], some "page2") ∧
      downloadLoop
        (fun u => if u = "page1" then some ⟨some [⟨[], none⟩], some "page2"⟩
          else if u = "page2"
          then some ⟨some [⟨[], none⟩,
            ⟨["1", "", "", "", "", "", "", "", "pdf"], some "l1"⟩], none⟩
          else none)
        (fun _ h => h) "dir" 3 "page1"
        = Except.ok [mkWget "1" "dir" "pdf" "l1" "l1"] := by
  constructor
  · rfl
  · rfl

/-- C8 amended: a page whose table element is missing, or whose table has
no rows at all (not even a header), makes `links` emit nothing and return
the early-exit value, and the collection terminates there without error;
a table with a header row but no data rows also emits nothing for that
page, but a next-page link, if present, is still followed (the
counterexample exhibits this). -/
theorem links_empty_table_amended (fetch : String → Option Page)
    (urljoin : String → String → String) (url path : String) (page : Page)
    (hu : url ≠ "") (hf : fetch url = some page)
    (ht : page.table = none ∨ page.table = some []) :
    links fetch urljoin url path = Except.ok ([], none) ∧
      ∀ fuel, downloadLoop fetch urljoin path (fuel + 1) url
        = Except.ok [] := by
  have hl : links fetch urljoin url path = Except.ok ([], none) := by
    cases ht with
    | inl h => simp only [links, hf, h]
    | inr h => simp only [links, hf, h]
  refine ⟨hl, fun fuel => ?_⟩
  simp only [downloadLoop, if_neg hu, hl]

/-- C8 amended witness: a concrete page with no table. -/
theorem links_empty_table_amended_witness :
    links (fun _ => some ⟨none, some "page2"⟩) (fun _ h => h) "page1" "dir"
      = Except.ok ([], none) :=
  (links_empty_table_amended (fun _ => some ⟨none, some "page2"⟩)
    (fun _ h => h) "page1" "dir" ⟨none, some "page2"⟩ (by decide) rfl
    (Or.inl rfl)).1

/-- C9 counterexample: a data row with no cells (so `tds[0]` is out of
range) makes `links` raise an uncaught error instead of treating the miss
as "not found". -/
theorem links_row_miss_raises_cex :
    links (fun _ => some ⟨some [⟨[], none⟩, ⟨[], none⟩], none⟩)
      (fun _ h => h) "page1" "dir" = Except.error [] := rfl

/-- C9 amended: misses of the results container, of the result link
inside it (amazon.py), and of the results table (libgen.py) are treated
as "not found" — an empty result or a silent stop, never an error — but a
data row whose matching download link is absent, or whose cell list is
too short for the column indices the script reads (0 and 8), raises an
uncaught error. -/
theorem parse_miss_amended :
    (∀ (urljoin : String → String → String) (u : String) (page : APage),
      page.div = none → amazonExtract urljoin u page = Except.ok "") ∧
    (∀ (urljoin : String → String → String) (u : String) (page : APage)
      (d : ADiv), page.div = some d → d.a = none →
        amazonExtract urljoin u page = Except.ok "") ∧
    (∀ (fetch : String → Option Page) (urljoin : String → String → String)
      (url path : String) (page : Page), fetch url = some page →
        page.table = none → links fetch urljoin url path
          = Except.ok ([], none)) ∧
    (∀ (urljoin : String → String → String) (url path : String) (r : Row),
      r.href = none → processRow urljoin url path r = Except.error ()) ∧
    (∀ (urljoin : String → String → String) (url path : String) (r : Row),
      r.tds.length ≤ 8 → processRow urljoin url path r = Except.error ()) := by
  refine ⟨?_, ?_, ?_, ?_, ?_⟩
  · intro urljoin u page h
    rw [amazonExtract, h]
  · intro urljoin u page d h1 h2
    rw [amazonExtract, h1]
    show (match d.a with
      | none => Except.ok ""
      | some an =>
        match an.href with
        | none => Except.error ()
        | some h => Except.ok (cleanup (urljoin u h))) = _
    rw [h2]
  · intro fetch urljoin url path page hf ht
    simp only [links, hf, ht]
  · intro urljoin url path r h
    cases h0 : r.tds.get? 0 with
    | none => rw [processRow, h0]
    | some id =>
      rw [processRow, h0]
      show (match r.href with
        | none => Except.error ()
        | some hr => _) = _
      rw [h]
  · intro urljoin url path r hlen
    have h8 : r.tds.get? 8 = none := by
      rw [List.get?_eq_none]
      exact hlen
    cases h0 : r.tds.get? 0 with
    | none => rw [processRow, h0]
    | some id =>
      cases hh : r.href with
      | none =>
        rw [processRow, h0]
        show (match r.href with
          | none => Except.error ()
          | some hr => _) = _
        rw [hh]
      | some hr =>
        rw [processRow, h0]
        show (match r.href with
          | none => Except.error ()
          | some hr => _) = _
        rw [hh]
        show (match r.tds.get? 8 with
          | none => Except.error ()
          | some ext => Except.ok _) = _
        rw [h8]

/-- C9 amended witness: a missing results container yields the empty
result. -/
theorem parse_miss_amended_witness :
    amazonExtract (fun _ h => h) "q" ⟨none⟩ = Except.ok "" :=
  parse_miss_amended.1 (fun _ h => h) "q" ⟨none⟩ rfl

end Scripts
